import Mathlib

/-!
Verification of the message-to-print decision pipeline of the imap-print
repository (src/main.go). The Go source is shallowly embedded: pure helpers
become Lean functions, and the side-effecting pipeline (fetch, extraction,
cleanup, printing, shutdown) becomes a trace semantics producing a list of
observable events. External collaborators (IMAP transport, CUPS, the file
system) are modelled as oracle inputs carried by the run input record.
-/

/-! ## Go strings helpers

The Go code uses strings.Split(s, "."), strings.ToLower and
strings.TrimSpace. These are embedded as structurally recursive functions
over the character list of a string, with Go semantics for a one-character
separator. -/

/-- Embeds strings.Split(s, sep) for a single-character separator: splits the
character list at every occurrence of the separator, keeping empty fields. -/
def splitCharList (c : Char) : List Char → List (List Char)
  | [] => [[]]
  | x :: xs =>
    let r := splitCharList c xs
    if x == c then [] :: r
    else
      match r with
      | [] => [[x]]
      | h :: t => (x :: h) :: t

/-- Embeds strings.Split(file, ".") from Mail.validAttachments. -/
def splitOnDot (s : String) : List String :=
  (splitCharList '.' s.data).map (fun cs => String.mk cs)

/-- Embeds strings.ToLower restricted to ASCII (the extension comparison in
the source only meaningfully distinguishes ASCII case). -/
def toLowerStr (s : String) : String :=
  String.mk (s.data.map Char.toLower)

/-- Embeds strings.TrimSpace: drops whitespace from both ends. -/
def trimSpace (s : String) : String :=
  String.mk (((s.data.dropWhile Char.isWhitespace).reverse.dropWhile
    Char.isWhitespace).reverse)

/-! ## Data model (types Mail and Attachment from src/main.go) -/

/-- Attachment is a downloaded email attachment: File is the storage path of
the temporary file, Name the declared filename. -/
structure Attachment where
  File : String
  Name : String
deriving Repr, DecidableEq, BEq

/-- Mail is the reduced/simplified mail message built by convert. The Date
field abstracts time.Time as a number. -/
structure Mail where
  Date : Nat
  From : String
  Subject : String
  Body : String
  Attachments : List Attachment
deriving Repr, DecidableEq, BEq

/-! ## Admission policy (isValid, hasAttachments, validAttachments,
isValidSender, inArrStr from src/main.go) -/

/-- Embeds inArrStr: linear scan returning true at the first equal element. -/
def inArrStr (s : String) (a : List String) : Bool :=
  a.any (fun v => v == s)

/-- Embeds Mail.hasAttachments: the attachment list is non-empty. -/
def Mail.hasAttachments (m : Mail) : Bool :=
  m.Attachments.length > 0

/-- Embeds Mail.validAttachments: false on an empty attachment list, else
true when some attachment storage path, split on the dot character, has more
than one part and its lowercased last part is in the extension list. -/
def Mail.validAttachments (m : Mail) (extensions : List String) : Bool :=
  if m.Attachments.length == 0 then false
  else
    m.Attachments.any (fun attachment =>
      if (splitOnDot attachment.File).length > 1 then
        inArrStr (toLowerStr ((splitOnDot attachment.File).getLastD "")) extensions
      else false)

/-- Embeds Mail.isValidSender: the From address is in the allow list. -/
def Mail.isValidSender (m : Mail) (allowed : List String) : Bool :=
  inArrStr m.From allowed

/-- Embeds Mail.isValid: conjunction of the three checks, in source order. -/
def Mail.isValid (m : Mail) (allowed : List String) (extensions : List String) : Bool :=
  m.hasAttachments && m.validAttachments extensions && m.isValidSender allowed

/-- Modelled from the specification text of the admission policy: eligible
equals has-attachments AND sender-in-allow-list AND some attachment whose
storage path has a final dot-extension whose lowercasing is in the extension
allow list. Written from the words of the spec, to be compared with
Mail.isValid. -/
def eligibleSpec (m : Mail) (allowed : List String) (extensions : List String) : Bool :=
  decide (m.Attachments ≠ [])
    && decide (m.From ∈ allowed)
    && m.Attachments.any (fun attachment =>
      decide ((splitOnDot attachment.File).length > 1)
        && decide (toLowerStr ((splitOnDot attachment.File).getLastD "") ∈ extensions))

/-! ## Go slices with an observable nil

The orchestrator distinguishes a nil slice from an empty non-nil slice
(getAttachments coerces nil to an empty slice; doprint tests for nil), so
slices of attachments are embedded with an explicit nil constructor. -/

/-- GoSlice models a Go slice: either nil or a concrete list of elements. -/
inductive GoSlice (α : Type) where
  | goNil : GoSlice α
  | mk (elems : List α) : GoSlice α
deriving Repr, DecidableEq, BEq

/-- Elements of a slice; the nil slice has none. -/
def GoSlice.toList {α : Type} : GoSlice α → List α
  | .goNil => []
  | .mk l => l

/-- Embeds the Go comparison with nil. -/
def GoSlice.isNil {α : Type} : GoSlice α → Bool
  | .goNil => true
  | .mk _ => false

/-- Embeds append(s, x): the result is always non-nil. -/
def GoSlice.append1 {α : Type} (s : GoSlice α) (x : α) : GoSlice α :=
  .mk (s.toList ++ [x])

/-! ## Observable events

Each externally visible step of the run is an event: a log line actually
written (logpad output; a logverb call contributes only when the verbose
flag is set, since logverb forwards to logpad only in that case), an IMAP
fetch, a temp-file write of an attachment, the store/expunge mailbox
mutations, a print submission, the session logout/close, the scratch
directory removal, and the fatal log of log.Fatal. -/

/-- Ev is one observable event of the run. -/
inductive Ev where
  | logpad (title : String) (vals : List String)
  | fetch (lo hi : Nat)
  | writeFile (path : String)
  | store (lo hi : Nat)
  | expunge
  | printFile (path : String) (printer : String)
  | logout
  | close
  | removeDir (dir : String)
  | fatal (msg : String)
deriving Repr, DecidableEq, BEq

/-- True on the set-deletion-flag mutation. -/
def Ev.isStore : Ev → Bool
  | .store _ _ => true
  | _ => false

/-- True on the commit-deletion mutation. -/
def Ev.isExpunge : Ev → Bool
  | .expunge => true
  | _ => false

/-- True on a print submission. -/
def Ev.isPrint : Ev → Bool
  | .printFile _ _ => true
  | _ => false

/-- True on any mailbox mutation or printer submission. -/
def Ev.isMutation (e : Ev) : Bool :=
  e.isStore || e.isExpunge || e.isPrint

/-- True on an attachment temp-file write. -/
def Ev.isWrite : Ev → Bool
  | .writeFile _ => true
  | _ => false

/-- True on the IMAP fetch. -/
def Ev.isFetch : Ev → Bool
  | .fetch _ _ => true
  | _ => false

/-- Events of the extraction phase: fetching and attachment writing. -/
def Ev.isExtraction (e : Ev) : Bool :=
  e.isFetch || e.isWrite

/-- Emits a logverb call: forwarded to logpad output only when verbose. -/
def logverbEv (verbose : Bool) (title : String) (vals : List String) : List Ev :=
  if verbose then [Ev.logpad title vals] else []

/-! ## Raw messages and the extractor (convert from src/main.go)

A raw IMAP message is modelled by the outcomes of the operations convert
performs on it: whether GetBody returns a body, whether mail.CreateReader
succeeds, the parsed header fields, and the sequence of MIME parts with the
outcomes of their reads and temp-file writes (oracle data standing for the
file system and the message bytes). -/

/-- RawPart is one MIME part together with the outcomes of the operations
convert applies to it. -/
inductive RawPart where
  | inlinePart (readRes : Except String String)
  | attachmentPart (filename : String) (createRes : Except String String)
      (copyErr : Option String)
  | otherPart (shown : String)
deriving Repr

/-- RawMessage models one fetched message as seen by convert. -/
structure RawMessage where
  hasBody : Bool
  parseErr : Option String
  dateHdr : Option Nat
  fromHdr : Option String
  subjectHdr : Option String
  parts : List RawPart
  partsErr : Option String
deriving Repr

/-- ConvertRes is the outcome of convert: fatal models log.Fatal (process
abort), ok models the Go return values (the Mail and the error). -/
inductive ConvertRes where
  | fatal (msg : String)
  | ok (m : Mail) (err : Option String)
deriving Repr, DecidableEq, BEq

/-- True exactly when convert returned with a non-nil error. -/
def ConvertRes.errIsSome : ConvertRes → Bool
  | .ok _ (some _) => true
  | _ => false

/-- Embeds the part loop of convert: inline parts overwrite the body (read
failures are logged and skipped), attachment parts are written to a fresh
temp file and appended (create or copy failures are logged and skipped),
other parts are logged as unhandled. -/
def convertParts (verbose : Bool) : List RawPart → Mail → List Ev × Mail
  | [], m => ([], m)
  | p :: ps, m =>
    match p with
    | .inlinePart (.error e) =>
      let r := convertParts verbose ps m
      (Ev.logpad "Read Message Text" [e] :: r.1, r.2)
    | .inlinePart (.ok b) =>
      convertParts verbose ps { m with Body := trimSpace b }
    | .attachmentPart _ (.error e) _ =>
      let r := convertParts verbose ps m
      (Ev.logpad "Create TempFiler" [e] :: r.1, r.2)
    | .attachmentPart _ (.ok _) (some e) =>
      let r := convertParts verbose ps m
      (Ev.logpad "Write Attachment" [e] :: r.1, r.2)
    | .attachmentPart filename (.ok path) none =>
      let r := convertParts verbose ps
        { m with Attachments := m.Attachments ++ [⟨path, filename⟩] }
      (Ev.writeFile path :: r.1, r.2)
    | .otherPart shown =>
      let r := convertParts verbose ps m
      (Ev.logpad "Unhandled Header" [shown] :: r.1, r.2)

/-- Embeds convert: a missing body or a reader-creation failure is log.Fatal
(process abort); otherwise the header fields are read with their defaults,
the parts are processed, a non-EOF part-stream error is logged and stops the
loop, and the Mail is returned with a nil error. -/
def convert (verbose : Bool) (now : Nat) (raw : RawMessage) : List Ev × ConvertRes :=
  if !raw.hasBody then
    ([Ev.fatal "Server did not return message body"],
      .fatal "Server did not return message body")
  else
    match raw.parseErr with
    | some e => ([Ev.fatal e], .fatal e)
    | none =>
      let m0 : Mail :=
        { Date := raw.dateHdr.getD now
          From := raw.fromHdr.getD ""
          Subject := raw.subjectHdr.getD ""
          Body := ""
          Attachments := [] }
      let r := convertParts verbose raw.parts m0
      let tailEv :=
        match raw.partsErr with
        | some e => [Ev.logpad "Read Message Part" [e]]
        | none => []
      (r.1 ++ tailEv, .ok r.2 none)

/-! ## Fetch loop (getMails from src/main.go) -/

/-- GetMailsRes is the outcome of getMails: a fetch-level transport error
(returned to the caller, which aborts), a fatal abort inside convert, or the
converted mails together with the number of times the per-message error-skip
branch ran. -/
inductive GetMailsRes where
  | fetchErr (e : String)
  | fatalConvert (e : String)
  | ok (mails : List Mail) (skips : Nat)
deriving Repr, DecidableEq, BEq

/-- Number of executions of the per-message error-skip branch. -/
def GetMailsRes.skips : GetMailsRes → Nat
  | .ok _ k => k
  | _ => 0

/-- Embeds the message loop of getMails: each message is converted; a
convert abort stops the process; a non-nil convert error is logged and the
message skipped; otherwise the mail is appended in delivery order. -/
def getMailsLoop (verbose : Bool) (now : Nat) : List RawMessage → List Ev × GetMailsRes
  | [] => ([], .ok [] 0)
  | raw :: raws =>
    let c := convert verbose now raw
    match c.2 with
    | .fatal e => (c.1, .fatalConvert e)
    | .ok _ (some e) =>
      let r := getMailsLoop verbose now raws
      (c.1 ++ Ev.logpad "Error" [e] :: r.1,
        match r.2 with
        | .ok ms k => .ok ms (k + 1)
        | other => other)
    | .ok m none =>
      let r := getMailsLoop verbose now raws
      (c.1 ++ r.1,
        match r.2 with
        | .ok ms k => .ok (m :: ms) k
        | other => other)

/-- Embeds getMails: the fetch of the sequence range is attempted first; a
transport error is returned to the caller; otherwise every delivered message
runs through convert. -/
def getMails (verbose : Bool) (now : Nat) (lo hi : Nat)
    (fetchRes : Except String (List RawMessage)) : List Ev × GetMailsRes :=
  match fetchRes with
  | .error e => ([Ev.fetch lo hi], .fetchErr e)
  | .ok raws =>
    let r := getMailsLoop verbose now raws
    (Ev.fetch lo hi :: r.1, r.2)

/-! ## Decision trace and accumulation (logmail, getAttachments) -/

/-- Embeds logmail: the per-message decision trace, all lines through
logverb (visible only when verbose). -/
def logmailEv (verbose : Bool) (allowed extensions : List String) (m : Mail) : List Ev :=
  logverbEv verbose "----- BEGIN MAIL -----" []
    ++ logverbEv verbose "Date" [toString m.Date]
    ++ logverbEv verbose "From" [m.From]
    ++ logverbEv verbose "Subject" [m.Subject]
    ++ logverbEv verbose "Text" [m.Body]
    ++ logverbEv verbose "Attachments" [toString m.Attachments.length]
    ++ logverbEv verbose "ValidSender" [toString (m.isValidSender allowed)]
    ++ logverbEv verbose "HasAttachments" [toString m.hasAttachments]
    ++ logverbEv verbose "ValidAttachments" [toString (m.validAttachments extensions)]
    ++ logverbEv verbose "Status"
      [if m.isValid allowed extensions then "Ok!" else "Will be ignored..."]
    ++ logverbEv verbose "----- END MAIL -----" []

/-- Embeds the loop of getAttachments: each mail is logged; invalid mails
are skipped; every attachment of a valid mail is appended in order. -/
def getAttachmentsLoop (verbose : Bool) (allowed extensions : List String) :
    List Mail → GoSlice Attachment → List Ev × GoSlice Attachment
  | [], acc => ([], acc)
  | m :: ms, acc =>
    let evs := logmailEv verbose allowed extensions m
    if m.isValid allowed extensions then
      let r := getAttachmentsLoop verbose allowed extensions ms
        (m.Attachments.foldl GoSlice.append1 acc)
      (evs ++ r.1, r.2)
    else
      let r := getAttachmentsLoop verbose allowed extensions ms acc
      (evs ++ r.1, r.2)

/-- Embeds getAttachments: the accumulated slice, with nil coerced to an
empty non-nil slice before returning. -/
def getAttachmentsRun (verbose : Bool) (allowed extensions : List String)
    (mails : List Mail) : List Ev × GoSlice Attachment :=
  let r := getAttachmentsLoop verbose allowed extensions mails .goNil
  (r.1, if r.2.isNil then .mk [] else r.2)

/-! ## Cleanup and printing (delexpunge, doprint) -/

/-- Embeds delexpunge: a verbose cleanup line, then nothing when dry-run;
otherwise the store mutation, whose failure is logged through logverb and
skips the expunge; an expunge failure is logged through logpad. -/
def delexpunge (verbose dryRun : Bool) (lo hi : Nat)
    (storeErr expungeErr : Option String) : List Ev :=
  logverbEv verbose "Cleanup" ["Deleting email(s)"]
    ++ if dryRun then []
      else
        Ev.store lo hi ::
          match storeErr with
          | some e => logverbEv verbose "IMAP Store Error" [e]
          | none =>
            Ev.expunge ::
              match expungeErr with
              | some e => [Ev.logpad "IMAP Expunge Error" [e]]
              | none => []

/-- Embeds the loop of doprint: each attachment path is logged; dry-run logs
a placeholder job id through logverb and submits nothing; otherwise the file
is submitted and the job id or error logged through logverb. -/
def doprintLoop (verbose dryRun : Bool) (printer : String)
    (printRes : String → Except String Nat) : List Attachment → List Ev
  | [] => []
  | a :: rest =>
    (Ev.logpad "Printing" [a.File]
      :: (if dryRun then logverbEv verbose "JobID" ["123456"]
        else
          Ev.printFile a.File printer ::
            match printRes a.File with
            | .error e => logverbEv verbose "JobID" [e]
            | .ok job => logverbEv verbose "JobID" [toString job]))
      ++ doprintLoop verbose dryRun printer printRes rest

/-- Embeds doprint: only a nil slice takes the nothing-to-do branch; any
non-nil slice, also an empty one, runs the loop over its elements. -/
def doprint (verbose dryRun : Bool) (printer : String)
    (printRes : String → Except String Nat) (attachments : GoSlice Attachment) : List Ev :=
  if attachments.isNil then [Ev.logpad "Printing" ["Nothing to do"]]
  else doprintLoop verbose dryRun printer printRes attachments.toList

/-! ## Orchestrator (action, shutdown) -/

/-- Embeds shutdown: logout, close, and removal of the scratch directory
unless it is empty or equals the operating-system temp root. -/
def shutdownEv (tmpDir osTempDir : String) : List Ev :=
  [Ev.logout, Ev.close]
    ++ if tmpDir != "" && tmpDir != osTempDir then [Ev.removeDir tmpDir] else []

/-- RunInput carries the configuration and the oracle outcomes of all
external operations of one run. -/
structure RunInput where
  verbose : Bool
  dryRun : Bool
  allowed : List String
  extensions : List String
  printer : String
  messages : Nat
  now : Nat
  fetchRes : Except String (List RawMessage)
  storeErr : Option String
  expungeErr : Option String
  printRes : String → Except String Nat
  tmpDir : String
  osTempDir : String

/-- ExitKind tells how the run ended: the zero-message exit through os.Exit,
an abort through log.Fatal, or a normal return. -/
inductive ExitKind where
  | exitZero
  | fatalExit
  | normal
deriving Repr, DecidableEq, BEq

/-- Embeds action together with its deferred shutdown. Both os.Exit (the
zero-message branch) and log.Fatal (fetch or convert failure) terminate the
process without running deferred functions, so only the normal return path
appends the shutdown events. -/
def action (inp : RunInput) : List Ev × ExitKind :=
  if inp.messages == 0 then
    ([Ev.logpad "No Messages" ["Nothing to do..."]], .exitZero)
  else
    let g := getMails inp.verbose inp.now 1 inp.messages inp.fetchRes
    match g.2 with
    | .fetchErr e => (g.1 ++ [Ev.fatal ("Error getting messages:" ++ e)], .fatalExit)
    | .fatalConvert _ => (g.1, .fatalExit)
    | .ok mails _ =>
      let a := getAttachmentsRun inp.verbose inp.allowed inp.extensions mails
      (g.1 ++ a.1
        ++ delexpunge inp.verbose inp.dryRun 1 inp.messages inp.storeErr inp.expungeErr
        ++ doprint inp.verbose inp.dryRun inp.printer inp.printRes a.2
        ++ shutdownEv inp.tmpDir inp.osTempDir, .normal)

/-! ## Event shape predicates and concrete example runs -/

/-- True on a log line. -/
def Ev.isLog : Ev → Bool
  | .logpad _ _ => true
  | _ => false

/-- Shape of the fetch-and-extraction phase events. -/
def Ev.isPipe (e : Ev) : Bool :=
  match e with
  | .logpad _ _ => true
  | .writeFile _ => true
  | .fetch _ _ => true
  | .fatal _ => true
  | _ => false

/-- Shape of the print-dispatch phase events. -/
def Ev.isPrintPhase (e : Ev) : Bool :=
  match e with
  | .logpad _ _ => true
  | .printFile _ _ => true
  | _ => false

/-- Shape of the cleanup phase events. -/
def Ev.isCleanupPhase (e : Ev) : Bool :=
  match e with
  | .logpad _ _ => true
  | .store _ _ => true
  | .expunge => true
  | _ => false

/-- Shape of the shutdown events. -/
def Ev.isSession (e : Ev) : Bool :=
  match e with
  | .logout => true
  | .close => true
  | .removeDir _ => true
  | _ => false

/-- A raw message that converts cleanly: body present, parse ok, no parts. -/
def rawPlain : RawMessage :=
  { hasBody := true, parseErr := none, dateHdr := none,
    fromHdr := some "alice@example.com", subjectHdr := none, parts := [],
    partsErr := none }

/-- A raw message carrying one pdf attachment that writes cleanly. -/
def rawWithPdf : RawMessage :=
  { rawPlain with
    parts := [RawPart.attachmentPart "inv.pdf"
      (Except.ok "/tmp/imap-print-1/1_inv.pdf") none] }

/-- A base run input for the concrete runs used by witnesses and
counterexamples. -/
def runBase : RunInput :=
  { verbose := false, dryRun := false, allowed := ["alice@example.com"],
    extensions := ["pdf"], printer := "office", messages := 1, now := 0,
    fetchRes := Except.ok [rawPlain], storeErr := none, expungeErr := none,
    printRes := fun _ => Except.ok 42, tmpDir := "/tmp/imap-print-1",
    osTempDir := "/tmp" }

/-- A concrete dry run without verbose, fetching one pdf-attachment mail. -/
def runDryPdf : RunInput :=
  { runBase with dryRun := true, fetchRes := Except.ok [rawWithPdf] }

/-- A concrete run with zero messages in the mailbox. -/
def runZero : RunInput := { runBase with messages := 0 }

/-- A concrete non-verbose run whose store operation fails. -/
def runStoreFail : RunInput := { runBase with storeErr := some "store failed" }

/-! ## Helper lemmas about the policy -/

lemma inArrStr_eq_mem (s : String) (a : List String) :
    inArrStr s a = decide (s ∈ a) := by
  induction a with
  | nil => rfl
  | cons v rest ih =>
    simp only [inArrStr, List.any_cons] at *
    by_cases h : v = s
    · subst h; simp
    · have hb : (v == s) = false := by
        simpa using h
      simp [hb, ih, List.mem_cons, Ne.symm h]

lemma validAttachments_eq_any (m : Mail) (extensions : List String) :
    m.validAttachments extensions
      = m.Attachments.any (fun attachment =>
        decide ((splitOnDot attachment.File).length > 1)
          && decide (toLowerStr ((splitOnDot attachment.File).getLastD "") ∈ extensions)) := by
  unfold Mail.validAttachments
  have hfg : (fun attachment : Attachment =>
      if (splitOnDot attachment.File).length > 1 then
        inArrStr (toLowerStr ((splitOnDot attachment.File).getLastD "")) extensions
      else false)
    = (fun attachment : Attachment =>
        decide ((splitOnDot attachment.File).length > 1)
          && decide (toLowerStr ((splitOnDot attachment.File).getLastD "") ∈ extensions)) := by
    funext x
    by_cases hx : (splitOnDot x.File).length > 1
    · simp [hx, inArrStr_eq_mem]
    · simp [hx]
  rw [hfg]
  cases h : m.Attachments with
  | nil => simp
  | cons a rest => simp

/-- The three claims C1 relies on, as one equation between the code-side
verdict and the spec-side formula. -/
theorem claim_C1_eligible_is_conjunction (m : Mail) (allowed extensions : List String) :
    m.isValid allowed extensions = eligibleSpec m allowed extensions := by
  unfold Mail.isValid eligibleSpec Mail.hasAttachments Mail.isValidSender
  rw [validAttachments_eq_any, inArrStr_eq_mem]
  cases h : m.Attachments with
  | nil => simp [h]
  | cons a rest =>
    have h1 : decide ((a :: rest).length > 0) = true := by simp
    have h2 : decide (a :: rest ≠ []) = true := by simp
    rw [h1, h2, Bool.true_and, Bool.true_and, Bool.and_comm]

/-! ## Lemmas about accumulation (claims C2 and C6) -/

@[simp] lemma GoSlice.toList_mk {α : Type} (l : List α) : (GoSlice.mk l).toList = l := rfl

@[simp] lemma GoSlice.toList_goNil {α : Type} : (GoSlice.goNil : GoSlice α).toList = [] := rfl

@[simp] lemma GoSlice.isNil_mk {α : Type} (l : List α) : (GoSlice.mk l).isNil = false := rfl

@[simp] lemma GoSlice.isNil_goNil {α : Type} : (GoSlice.goNil : GoSlice α).isNil = true := rfl

lemma GoSlice.toList_foldl_append1 {α : Type} (l : List α) :
    ∀ s : GoSlice α, (l.foldl GoSlice.append1 s).toList = s.toList ++ l := by
  induction l with
  | nil => intro s; simp
  | cons x xs ih =>
    intro s
    rw [List.foldl_cons, ih]
    simp [GoSlice.append1]

lemma getAttachmentsLoop_toList (v : Bool) (al ex : List String) (ms : List Mail) :
    ∀ acc : GoSlice Attachment,
      ((getAttachmentsLoop v al ex ms acc).2).toList
        = acc.toList ++ (ms.filter (fun m => m.isValid al ex)).flatMap Mail.Attachments := by
  induction ms with
  | nil => intro acc; simp [getAttachmentsLoop]
  | cons m rest ih =>
    intro acc
    unfold getAttachmentsLoop
    cases h : m.isValid al ex with
    | true =>
      simp only [h, if_true, ih, GoSlice.toList_foldl_append1, List.filter_cons, h,
        List.flatMap_cons, List.append_assoc]
    | false =>
      simp only [h, Bool.false_eq_true, if_false, ih, List.filter_cons, h,
        List.flatMap_cons]

lemma goSlice_denil_toList {α : Type} (s : GoSlice α) :
    (if s.isNil then GoSlice.mk [] else s).toList = s.toList := by
  cases s <;> rfl

/-- Claim C2: every attachment of every eligible mail is accumulated, flat,
in mail order and, within each mail, in attachment order; ineligible mails
contribute nothing. -/
theorem claim_C2_accumulation_order (v : Bool) (al ex : List String) (mails : List Mail) :
    ((getAttachmentsRun v al ex mails).2).toList
      = (mails.filter (fun m => m.isValid al ex)).flatMap Mail.Attachments := by
  unfold getAttachmentsRun
  simp only [goSlice_denil_toList, getAttachmentsLoop_toList]
  rfl

/-- Claim C6 as amended: the nothing-to-do branch of doprint fires only on a
nil slice; the orchestrator always hands doprint a non-nil slice, so for an
orchestrator-produced empty batch doprint emits nothing at all, and in
particular submits nothing. -/
theorem claim_C6_empty_input_amended :
    (∀ (v d : Bool) (p : String) (pr : String → Except String Nat),
      doprint v d p pr (GoSlice.mk []) = []
        ∧ doprint v d p pr GoSlice.goNil = [Ev.logpad "Printing" ["Nothing to do"]])
    ∧ ∀ (v : Bool) (al ex : List String) (mails : List Mail),
        ((getAttachmentsRun v al ex mails).2).isNil = false := by
  constructor
  · intro v d p pr
    exact ⟨rfl, rfl⟩
  · intro v al ex mails
    unfold getAttachmentsRun
    cases h : (getAttachmentsLoop v al ex mails GoSlice.goNil).2 <;> simp [h]

/-- Claim C6 counterexample: for the empty batch the orchestrator produces
the empty non-nil slice, and doprint on it emits no log line at all, in
particular not the nothing-to-do line the claim requires. -/
theorem claim_C6_counterexample :
    ((getAttachmentsRun false [] [] []).2) = GoSlice.mk []
      ∧ doprint false false "printer" (fun _ => Except.ok 0) (GoSlice.mk []) = [] := by
  exact ⟨rfl, rfl⟩

/-! ## Claim C8: case handling of the two matchers -/

/-- Claim C8: extension matching lowercases only the attachment side before
the exact-match membership test, and sender matching is a case-sensitive
exact comparison; with concrete demonstrations in both directions. -/
theorem claim_C8_case_sensitivity :
    (∀ (m : Mail) (extensions : List String),
      m.validAttachments extensions
        = m.Attachments.any (fun attachment =>
          decide ((splitOnDot attachment.File).length > 1)
            && inArrStr (toLowerStr ((splitOnDot attachment.File).getLastD "")) extensions))
    ∧ (∀ (m : Mail) (allowed : List String),
        m.isValidSender allowed = inArrStr m.From allowed)
    ∧ Mail.validAttachments ⟨0, "s@x", "", "", [⟨"/tmp/1_inv.PDF", "inv.PDF"⟩]⟩ ["pdf"] = true
    ∧ Mail.validAttachments ⟨0, "s@x", "", "", [⟨"/tmp/1_inv.pdf", "inv.pdf"⟩]⟩ ["PDF"] = false
    ∧ Mail.isValidSender ⟨0, "Allowed@example.com", "", "", []⟩ ["allowed@example.com"] = false
    ∧ Mail.isValidSender ⟨0, "allowed@example.com", "", "", []⟩ ["allowed@example.com"] = true := by
  refine ⟨?_, fun m allowed => rfl, by decide, by decide, by decide, by decide⟩
  intro m extensions
  rw [validAttachments_eq_any]
  congr 1
  funext x
  rw [inArrStr_eq_mem]

/-! ## Shape lemmas for the event traces -/

lemma all_implies {p q : Ev → Bool} (h : ∀ e, p e = true → q e = true)
    {l : List Ev} (hl : l.all p = true) : l.all q = true := by
  rw [List.all_eq_true] at hl ⊢
  exact fun e he => h e (hl e he)

lemma isPipe_not_mutation : ∀ e : Ev, e.isPipe = true → (!e.isMutation) = true := by
  intro e
  cases e <;> simp [Ev.isPipe, Ev.isMutation, Ev.isStore, Ev.isExpunge, Ev.isPrint]

lemma isPipe_not_expunge : ∀ e : Ev, e.isPipe = true → (!e.isExpunge) = true := by
  intro e
  cases e <;> simp [Ev.isPipe, Ev.isExpunge]

lemma isLog_not_mutation : ∀ e : Ev, e.isLog = true → (!e.isMutation) = true := by
  intro e
  cases e <;> simp [Ev.isLog, Ev.isMutation, Ev.isStore, Ev.isExpunge, Ev.isPrint]

lemma isLog_not_expunge : ∀ e : Ev, e.isLog = true → (!e.isExpunge) = true := by
  intro e
  cases e <;> simp [Ev.isLog, Ev.isExpunge]

lemma isSession_not_mutation : ∀ e : Ev, e.isSession = true → (!e.isMutation) = true := by
  intro e
  cases e <;> simp [Ev.isSession, Ev.isMutation, Ev.isStore, Ev.isExpunge, Ev.isPrint]

lemma isSession_not_expunge : ∀ e : Ev, e.isSession = true → (!e.isExpunge) = true := by
  intro e
  cases e <;> simp [Ev.isSession, Ev.isExpunge]

lemma isPrintPhase_not_expunge : ∀ e : Ev, e.isPrintPhase = true → (!e.isExpunge) = true := by
  intro e
  cases e <;> simp [Ev.isPrintPhase, Ev.isExpunge]

lemma logverbEv_all_isLog (v : Bool) (t : String) (vs : List String) :
    (logverbEv v t vs).all Ev.isLog = true := by
  cases v <;> simp [logverbEv, Ev.isLog]

lemma logmailEv_all_isLog (v : Bool) (al ex : List String) (m : Mail) :
    (logmailEv v al ex m).all Ev.isLog = true := by
  cases v <;> simp [logmailEv, logverbEv, Ev.isLog]

lemma convertParts_all_isPipe (v : Bool) (ps : List RawPart) :
    ∀ m : Mail, ((convertParts v ps m).1).all Ev.isPipe = true := by
  induction ps with
  | nil => intro m; rfl
  | cons p rest ih =>
    intro m
    cases p with
    | inlinePart rr =>
      cases rr <;> simp [convertParts, Ev.isPipe, ih]
    | attachmentPart fn cr ce =>
      cases cr with
      | error e => simp [convertParts, Ev.isPipe, ih]
      | ok path => cases ce <;> simp [convertParts, Ev.isPipe, ih]
    | otherPart s => simp [convertParts, Ev.isPipe, ih]

lemma convert_all_isPipe (v : Bool) (now : Nat) (raw : RawMessage) :
    ((convert v now raw).1).all Ev.isPipe = true := by
  unfold convert
  cases h : raw.hasBody with
  | false => simp [Ev.isPipe]
  | true =>
    cases hp : raw.parseErr with
    | some e => simp [Ev.isPipe]
    | none =>
      cases hpe : raw.partsErr <;>
        simp [List.all_append, convertParts_all_isPipe, Ev.isPipe]

lemma getMailsLoop_all_isPipe (v : Bool) (now : Nat) :
    ∀ raws : List RawMessage, ((getMailsLoop v now raws).1).all Ev.isPipe = true := by
  intro raws
  induction raws with
  | nil => rfl
  | cons raw rest ih =>
    unfold getMailsLoop
    cases hc : (convert v now raw).2 with
    | fatal e =>
      simp only [hc]
      simpa using convert_all_isPipe v now raw
    | ok m err =>
      cases err with
      | some e =>
        simp only [hc]
        simp [List.all_append, List.all_cons, convert_all_isPipe, ih, Ev.isPipe]
      | none =>
        simp only [hc]
        simp [List.all_append, convert_all_isPipe, ih]

lemma getMails_all_isPipe (v : Bool) (now lo hi : Nat)
    (fr : Except String (List RawMessage)) :
    ((getMails v now lo hi fr).1).all Ev.isPipe = true := by
  cases fr <;> simp [getMails, Ev.isPipe, getMailsLoop_all_isPipe, List.all_cons]

lemma getAttachmentsLoop_all_isLog (v : Bool) (al ex : List String) :
    ∀ (ms : List Mail) (acc : GoSlice Attachment),
      ((getAttachmentsLoop v al ex ms acc).1).all Ev.isLog = true := by
  intro ms
  induction ms with
  | nil => intro acc; rfl
  | cons m rest ih =>
    intro acc
    unfold getAttachmentsLoop
    cases h : m.isValid al ex <;>
      simp [h, List.all_append, logmailEv_all_isLog, ih]

lemma getAttachmentsRun_all_isLog (v : Bool) (al ex : List String) (ms : List Mail) :
    ((getAttachmentsRun v al ex ms).1).all Ev.isLog = true := by
  unfold getAttachmentsRun
  exact getAttachmentsLoop_all_isLog v al ex ms .goNil

lemma shutdownEv_all_isSession (t o : String) :
    (shutdownEv t o).all Ev.isSession = true := by
  unfold shutdownEv
  cases h : (t != "" && t != o) <;> simp [h, Ev.isSession]

/-! ## Cleanup and print trace lemmas -/

lemma delexpunge_dry (v : Bool) (lo hi : Nat) (se ee : Option String) :
    delexpunge v true lo hi se ee = logverbEv v "Cleanup" ["Deleting email(s)"] := by
  simp [delexpunge]

lemma delexpunge_store_fail (v : Bool) (lo hi : Nat) (e : String) (ee : Option String) :
    delexpunge v false lo hi (some e) ee
      = logverbEv v "Cleanup" ["Deleting email(s)"]
        ++ Ev.store lo hi :: logverbEv v "IMAP Store Error" [e] := by
  simp [delexpunge]

lemma delexpunge_all_isCleanupPhase (v d : Bool) (lo hi : Nat) (se ee : Option String) :
    (delexpunge v d lo hi se ee).all Ev.isCleanupPhase = true := by
  cases v <;> cases d <;> cases se <;> cases ee <;>
    simp [delexpunge, logverbEv, Ev.isCleanupPhase]

lemma delexpunge_store_fail_no_expunge (v : Bool) (lo hi : Nat) (e : String)
    (ee : Option String) :
    (delexpunge v false lo hi (some e) ee).all (fun x => !x.isExpunge) = true := by
  cases v <;> simp [delexpunge, logverbEv, Ev.isExpunge]

lemma store_mem_delexpunge (v : Bool) (lo hi : Nat) (se ee : Option String) :
    Ev.store lo hi ∈ delexpunge v false lo hi se ee := by
  cases v <;> cases se <;> cases ee <;> simp [delexpunge, logverbEv]

lemma expunge_mem_delexpunge (v : Bool) (lo hi : Nat) (ee : Option String) :
    Ev.expunge ∈ delexpunge v false lo hi none ee := by
  cases v <;> cases ee <;> simp [delexpunge, logverbEv]

lemma doprintLoop_all_isPrintPhase (v d : Bool) (p : String)
    (pr : String → Except String Nat) :
    ∀ l : List Attachment, (doprintLoop v d p pr l).all Ev.isPrintPhase = true := by
  intro l
  induction l with
  | nil => rfl
  | cons a rest ih =>
    cases d with
    | true =>
      cases v <;> simp [doprintLoop, logverbEv, Ev.isPrintPhase, ih]
    | false =>
      cases hr : pr a.File with
      | error e => cases v <;> simp [doprintLoop, hr, logverbEv, Ev.isPrintPhase, ih]
      | ok j => cases v <;> simp [doprintLoop, hr, logverbEv, Ev.isPrintPhase, ih]

lemma doprint_all_isPrintPhase (v d : Bool) (p : String)
    (pr : String → Except String Nat) (atts : GoSlice Attachment) :
    (doprint v d p pr atts).all Ev.isPrintPhase = true := by
  cases atts with
  | goNil => simp [doprint, Ev.isPrintPhase]
  | mk l => simpa [doprint] using doprintLoop_all_isPrintPhase v d p pr l

lemma doprintLoop_dry_all_isLog (v : Bool) (p : String)
    (pr : String → Except String Nat) :
    ∀ l : List Attachment, (doprintLoop v true p pr l).all Ev.isLog = true := by
  intro l
  induction l with
  | nil => rfl
  | cons a rest ih => cases v <;> simp [doprintLoop, logverbEv, Ev.isLog, ih]

lemma doprint_dry_all_isLog (v : Bool) (p : String)
    (pr : String → Except String Nat) (atts : GoSlice Attachment) :
    (doprint v true p pr atts).all Ev.isLog = true := by
  cases atts with
  | goNil => simp [doprint, Ev.isLog]
  | mk l => simpa [doprint] using doprintLoop_dry_all_isLog v p pr l

lemma delexpunge_dry_all_isLog (v : Bool) (lo hi : Nat) (se ee : Option String) :
    (delexpunge v true lo hi se ee).all Ev.isLog = true := by
  rw [delexpunge_dry]
  exact logverbEv_all_isLog v "Cleanup" ["Deleting email(s)"]

lemma all_append_of {f : Ev → Bool} {l1 l2 : List Ev} (h1 : l1.all f = true)
    (h2 : l2.all f = true) : (l1 ++ l2).all f = true := by
  rw [List.all_append, h1, h2]
  rfl

lemma action_dry_noMutation (inp : RunInput) (h : inp.dryRun = true) :
    ((action inp).1).all (fun e => !e.isMutation) = true := by
  unfold action
  cases h0 : (inp.messages == 0) with
  | true => simp [h0, Ev.isMutation, Ev.isStore, Ev.isExpunge, Ev.isPrint]
  | false =>
    simp only [h0, Bool.false_eq_true, if_false]
    have hgm := all_implies isPipe_not_mutation
      (getMails_all_isPipe inp.verbose inp.now 1 inp.messages inp.fetchRes)
    cases hg : (getMails inp.verbose inp.now 1 inp.messages inp.fetchRes).2 with
    | fetchErr e =>
      simp only [hg]
      exact all_append_of hgm
        (by simp [Ev.isMutation, Ev.isStore, Ev.isExpunge, Ev.isPrint])
    | fatalConvert e =>
      simp only [hg]
      exact hgm
    | ok mails k =>
      simp only [hg, h]
      have hga := all_implies isLog_not_mutation
        (getAttachmentsRun_all_isLog inp.verbose inp.allowed inp.extensions mails)
      have hcl := all_implies isLog_not_mutation
        (delexpunge_dry_all_isLog inp.verbose 1 inp.messages inp.storeErr inp.expungeErr)
      have hpr := all_implies isLog_not_mutation
        (doprint_dry_all_isLog inp.verbose inp.printer inp.printRes
          (getAttachmentsRun inp.verbose inp.allowed inp.extensions mails).2)
      have hsh := all_implies isSession_not_mutation
        (shutdownEv_all_isSession inp.tmpDir inp.osTempDir)
      exact all_append_of (all_append_of (all_append_of (all_append_of hgm hga) hcl) hpr) hsh

lemma delexpunge_filter_extraction (v d : Bool) (lo hi : Nat) (se ee : Option String) :
    (delexpunge v d lo hi se ee).filter Ev.isExtraction = [] := by
  cases v <;> cases d <;> cases se <;> cases ee <;>
    simp [delexpunge, logverbEv, Ev.isExtraction, Ev.isFetch, Ev.isWrite]

lemma doprintLoop_filter_extraction (v d : Bool) (p : String)
    (pr : String → Except String Nat) :
    ∀ l : List Attachment, (doprintLoop v d p pr l).filter Ev.isExtraction = [] := by
  intro l
  induction l with
  | nil => rfl
  | cons a rest ih =>
    cases d with
    | true =>
      cases v <;>
        simp [doprintLoop, logverbEv, Ev.isExtraction, Ev.isFetch, Ev.isWrite, ih]
    | false =>
      cases hr : pr a.File with
      | error e =>
        cases v <;>
          simp [doprintLoop, hr, logverbEv, Ev.isExtraction, Ev.isFetch, Ev.isWrite, ih]
      | ok j =>
        cases v <;>
          simp [doprintLoop, hr, logverbEv, Ev.isExtraction, Ev.isFetch, Ev.isWrite, ih]

lemma doprint_filter_extraction (v d : Bool) (p : String)
    (pr : String → Except String Nat) (atts : GoSlice Attachment) :
    (doprint v d p pr atts).filter Ev.isExtraction = [] := by
  cases atts with
  | goNil => simp [doprint, Ev.isExtraction, Ev.isFetch, Ev.isWrite]
  | mk l => simpa [doprint] using doprintLoop_filter_extraction v d p pr l

lemma shutdownEv_filter_extraction (t o : String) :
    (shutdownEv t o).filter Ev.isExtraction = [] := by
  unfold shutdownEv
  cases h : (t != "" && t != o) <;> simp [h, Ev.isExtraction, Ev.isFetch, Ev.isWrite]

/-- Claim C10: the fetch and temp-file-write events of a run do not depend
on the dry-run flag, and a dry run performs no mailbox mutation and no print
submission. -/
theorem claim_C10_dry_run_frame (inp : RunInput) (d : Bool) :
    ((action { inp with dryRun := d }).1).filter Ev.isExtraction
      = ((action { inp with dryRun := false }).1).filter Ev.isExtraction
    ∧ ((action { inp with dryRun := true }).1).all (fun e => !e.isMutation) = true := by
  refine ⟨?_, action_dry_noMutation _ rfl⟩
  unfold action
  cases h0 : (inp.messages == 0) with
  | true => simp [h0]
  | false =>
    simp only [h0, Bool.false_eq_true, if_false]
    cases hg : (getMails inp.verbose inp.now 1 inp.messages inp.fetchRes).2 with
    | fetchErr e => simp only [hg]
    | fatalConvert e => simp only [hg]
    | ok mails k =>
      simp only [hg]
      simp [List.filter_append, delexpunge_filter_extraction, doprint_filter_extraction,
        shutdownEv_filter_extraction]

/-- Claim C4 as amended: with dry-run enabled no mailbox mutation and no
print submission event ever occurs, and, when verbose logging is on, the
dispatcher logs one placeholder job id line per attachment. -/
theorem claim_C4_dry_run_amended (inp : RunInput) (h : inp.dryRun = true) :
    ((action inp).1).all (fun e => !e.isMutation) = true
    ∧ ∀ (p : String) (pr : String → Except String Nat) (l : List Attachment),
        doprintLoop true true p pr l
          = l.flatMap (fun a =>
            [Ev.logpad "Printing" [a.File], Ev.logpad "JobID" ["123456"]]) := by
  refine ⟨action_dry_noMutation inp h, ?_⟩
  intro p pr l
  induction l with
  | nil => rfl
  | cons a rest ih => simp [doprintLoop, logverbEv, ih]

/-- Claim C4 witness at a concrete dry run. -/
theorem claim_C4_dry_run_amended_witness :
    ({ runBase with dryRun := true } : RunInput).dryRun = true
    ∧ ((action { runBase with dryRun := true }).1).all (fun e => !e.isMutation) = true :=
  ⟨rfl, (claim_C4_dry_run_amended { runBase with dryRun := true } rfl).1⟩

/-- Claim C4 counterexample: a dry run without the verbose flag processes
one attachment (one Printing log line) yet emits no placeholder job id. -/
theorem claim_C4_counterexample :
    ((action runDryPdf).1).count (Ev.logpad "JobID" ["123456"]) = 0
    ∧ ((action runDryPdf).1).count
      (Ev.logpad "Printing" ["/tmp/imap-print-1/1_inv.pdf"]) = 1 := by
  exact ⟨by decide, by decide⟩

/-- Claim C3: cleanup flags the whole originally fetched range 1..N whatever
the mails contained, and commits with expunge whenever flagging succeeds. -/
theorem claim_C3_cleanup_whole_range (inp : RunInput) (mails : List Mail) (k : Nat)
    (hN : inp.messages ≠ 0)
    (hfetch : (getMails inp.verbose inp.now 1 inp.messages inp.fetchRes).2
      = GetMailsRes.ok mails k)
    (hdry : inp.dryRun = false) :
    Ev.store 1 inp.messages ∈ (action inp).1
    ∧ (inp.storeErr = none → Ev.expunge ∈ (action inp).1) := by
  have h0 : (inp.messages == 0) = false := by simpa using hN
  unfold action
  simp only [h0, Bool.false_eq_true, if_false, hfetch, hdry]
  constructor
  · simp only [List.mem_append]
    exact Or.inl (Or.inl (Or.inr
      (store_mem_delexpunge inp.verbose 1 inp.messages inp.storeErr inp.expungeErr)))
  · intro hse
    rw [hse]
    simp only [List.mem_append]
    exact Or.inl (Or.inl (Or.inr
      (expunge_mem_delexpunge inp.verbose 1 inp.messages inp.expungeErr)))

/-- Claim C3 witness at a concrete run. -/
theorem claim_C3_cleanup_whole_range_witness :
    Ev.store 1 1 ∈ (action runBase).1
    ∧ (runBase.storeErr = none → Ev.expunge ∈ (action runBase).1) :=
  claim_C3_cleanup_whole_range runBase [⟨0, "alice@example.com", "", "", []⟩] 0
    (by decide) rfl rfl

/-- Claim C5 as amended: the deferred shutdown (logout, close, scratch
removal) ends the trace of every normally returning run; the zero-message
exit and the fatal aborts bypass the deferred call. -/
theorem claim_C5_shutdown_amended (inp : RunInput)
    (h : (action inp).2 = ExitKind.normal) :
    shutdownEv inp.tmpDir inp.osTempDir <:+ (action inp).1 := by
  simp only [action] at h ⊢
  by_cases h0 : (inp.messages == 0) = true
  · rw [if_pos h0] at h
    simp at h
  · rw [if_neg h0] at h ⊢
    cases hg : (getMails inp.verbose inp.now 1 inp.messages inp.fetchRes).2 with
    | fetchErr e =>
      rw [hg] at h
      simp at h
    | fatalConvert e =>
      rw [hg] at h
      simp at h
    | ok mails k =>
      simp only [hg]
      exact List.suffix_append _ _

/-- Claim C5 witness at a concrete normally returning run. -/
theorem claim_C5_shutdown_amended_witness :
    shutdownEv runBase.tmpDir runBase.osTempDir <:+ (action runBase).1 :=
  claim_C5_shutdown_amended runBase rfl

/-- Claim C5 counterexample: the zero-message run exits through os.Exit
before any deferred call runs, so its trace contains neither the logout nor
the close of the mailbox session. -/
theorem claim_C5_counterexample :
    ((action runZero).1).contains Ev.logout = false
    ∧ ((action runZero).1).contains Ev.close = false
    ∧ (action runZero).2 = ExitKind.exitZero := by
  exact ⟨by decide, by decide, rfl⟩

/-- Claim C7 as amended: when the store fails the expunge is never
attempted, the run still proceeds to the print step and returns normally,
and the store failure is logged only when verbose is enabled. -/
theorem claim_C7_store_failure_amended (inp : RunInput) (mails : List Mail) (k : Nat)
    (e' : String)
    (hN : inp.messages ≠ 0)
    (hfetch : (getMails inp.verbose inp.now 1 inp.messages inp.fetchRes).2
      = GetMailsRes.ok mails k)
    (hdry : inp.dryRun = false)
    (hstore : inp.storeErr = some e') :
    ((action inp).1).all (fun e => !e.isExpunge) = true
    ∧ (∃ pre, (action inp).1
        = pre ++ doprint inp.verbose inp.dryRun inp.printer inp.printRes
            (getAttachmentsRun inp.verbose inp.allowed inp.extensions mails).2
          ++ shutdownEv inp.tmpDir inp.osTempDir)
    ∧ (inp.verbose = true → Ev.logpad "IMAP Store Error" [e'] ∈ (action inp).1)
    ∧ (action inp).2 = ExitKind.normal := by
  have h0 : (inp.messages == 0) = false := by simpa using hN
  unfold action
  simp only [h0, Bool.false_eq_true, if_false, hfetch, hdry, hstore]
  refine ⟨?_, ?_, ?_, ?_⟩
  · have hgm := all_implies isPipe_not_expunge
      (getMails_all_isPipe inp.verbose inp.now 1 inp.messages inp.fetchRes)
    have hga := all_implies isLog_not_expunge
      (getAttachmentsRun_all_isLog inp.verbose inp.allowed inp.extensions mails)
    have hcl := delexpunge_store_fail_no_expunge inp.verbose 1 inp.messages e'
      inp.expungeErr
    have hpr := all_implies isPrintPhase_not_expunge
      (doprint_all_isPrintPhase inp.verbose false inp.printer inp.printRes
        (getAttachmentsRun inp.verbose inp.allowed inp.extensions mails).2)
    have hsh := all_implies isSession_not_expunge
      (shutdownEv_all_isSession inp.tmpDir inp.osTempDir)
    exact all_append_of (all_append_of (all_append_of (all_append_of hgm hga) hcl) hpr) hsh
  · exact ⟨_, rfl⟩
  · intro hv
    rw [hv]
    simp only [List.mem_append]
    refine Or.inl (Or.inl (Or.inr ?_))
    rw [delexpunge_store_fail]
    simp [logverbEv]
  · trivial

/-- Claim C7 witness at a concrete verbose-less run with a failing store. -/
theorem claim_C7_store_failure_amended_witness :
    ((action runStoreFail).1).all (fun e => !e.isExpunge) = true
    ∧ (∃ pre, (action runStoreFail).1
        = pre ++ doprint runStoreFail.verbose runStoreFail.dryRun runStoreFail.printer
            runStoreFail.printRes
            (getAttachmentsRun runStoreFail.verbose runStoreFail.allowed
              runStoreFail.extensions [⟨0, "alice@example.com", "", "", []⟩]).2
          ++ shutdownEv runStoreFail.tmpDir runStoreFail.osTempDir)
    ∧ (runStoreFail.verbose = true →
        Ev.logpad "IMAP Store Error" ["store failed"] ∈ (action runStoreFail).1)
    ∧ (action runStoreFail).2 = ExitKind.normal :=
  claim_C7_store_failure_amended runStoreFail [⟨0, "alice@example.com", "", "", []⟩] 0
    "store failed" (by decide) rfl rfl rfl

/-- Claim C7 counterexample: without the verbose flag a failing store is not
reported anywhere in the run trace, though the run continues normally. -/
theorem claim_C7_counterexample :
    ((action runStoreFail).1).count
      (Ev.logpad "IMAP Store Error" ["store failed"]) = 0
    ∧ (action runStoreFail).2 = ExitKind.normal := by
  exact ⟨by decide, rfl⟩

/-! ## Claim C9: the extractor error and the skip branch -/

lemma convert_errIsSome_false (v : Bool) (now : Nat) (raw : RawMessage) :
    ((convert v now raw).2).errIsSome = false := by
  unfold convert
  cases h : raw.hasBody with
  | false => simp [h, ConvertRes.errIsSome]
  | true =>
    cases hp : raw.parseErr with
    | some e => simp [h, hp, ConvertRes.errIsSome]
    | none => simp [h, hp, ConvertRes.errIsSome]

lemma getMailsLoop_skips_zero (v : Bool) (now : Nat) :
    ∀ raws : List RawMessage, ((getMailsLoop v now raws).2).skips = 0 := by
  intro raws
  induction raws with
  | nil => rfl
  | cons raw rest ih =>
    unfold getMailsLoop
    cases hc : (convert v now raw).2 with
    | fatal e => simp [hc, GetMailsRes.skips]
    | ok m err =>
      cases err with
      | some e =>
        have hne := convert_errIsSome_false v now raw
        rw [hc] at hne
        simp [ConvertRes.errIsSome] at hne
      | none =>
        simp only [hc]
        cases hr : (getMailsLoop v now rest).2 with
        | ok ms k =>
          rw [hr] at ih
          simpa [GetMailsRes.skips, hr] using ih
        | fetchErr e => simp [hr, GetMailsRes.skips]
        | fatalConvert e => simp [hr, GetMailsRes.skips]

/-- Claim C9: a message whose body opens and parses converts to a mail with
a nil error, convert never returns a non-nil error at all (its failures
abort the process instead), body or parse failures are fatal, and hence the
per-message error-skip branch of the fetch loop never runs. -/
theorem claim_C9_skip_branch_unreachable (v : Bool) (now : Nat) (raw : RawMessage)
    (h1 : raw.hasBody = true) (h2 : raw.parseErr = none) :
    (∃ m, (convert v now raw).2 = ConvertRes.ok m none)
    ∧ (∀ raw2 : RawMessage, ((convert v now raw2).2).errIsSome = false)
    ∧ (∀ raw3 : RawMessage, raw3.hasBody = false ∨ raw3.parseErr ≠ none →
        ∃ e, (convert v now raw3).2 = ConvertRes.fatal e)
    ∧ (∀ raws : List RawMessage, ((getMailsLoop v now raws).2).skips = 0) := by
  refine ⟨?_, fun raw2 => convert_errIsSome_false v now raw2, ?_,
    getMailsLoop_skips_zero v now⟩
  · unfold convert
    simp only [h1, h2, Bool.not_true, Bool.false_eq_true, if_false]
    exact ⟨_, rfl⟩
  · intro raw3 h
    cases hb : raw3.hasBody with
    | false => exact ⟨"Server did not return message body", by simp [convert, hb]⟩
    | true =>
      cases hp : raw3.parseErr with
      | some e => exact ⟨e, by simp [convert, hb, hp]⟩
      | none =>
        exfalso
        cases h with
        | inl hfalse =>
          rw [hb] at hfalse
          exact Bool.noConfusion hfalse
        | inr hne => exact hne hp

/-- Claim C9 witness at a concrete message. -/
theorem claim_C9_skip_branch_unreachable_witness :
    rawPlain.hasBody = true
    ∧ (∃ m, (convert false 0 rawPlain).2 = ConvertRes.ok m none) :=
  ⟨rfl, (claim_C9_skip_branch_unreachable false 0 rawPlain rfl rfl).1⟩
